import Mathlib

/-!
# Verification of the oracle price-aggregation core

A shallow embedding of the aggregation pipeline of
`oracle/sources/crypto/aggregator.go` (`calculateAggregatePrice`,
`fetchUniswapV3Price`), of the configuration validation of
`oracle/sources/crypto/config.go` (`ValidateLoadedConfig`), and of the
per-feed detail cache described by the design document (its
implementation is not part of the sources at hand, so it is modelled
from the spec).

Go `float64` arithmetic is embedded as exact rational arithmetic (`ℚ`);
Go `time.Time` instants and durations are embedded as rationals
(seconds); `time.Now()` becomes an explicit `now` parameter.
`sort.Slice(validPrices, ...Price < ...Price)` is embedded as insertion
sort on the (total, non-strict) price order: any execution of the Go
sort yields some list sorted by price, and insertion sort is one
deterministic such choice.
-/

/-- `common.PricePoint`: one observation from one source
(source ID, price, 24h volume, fetch timestamp, static weight). -/
structure PricePoint where
  source : String
  price : ℚ
  volume : ℚ
  timestamp : ℚ
  weight : ℚ
deriving DecidableEq, Repr, Inhabited

/-- The comparison `validPrices[i].Price < validPrices[j].Price` used by
both `sort.Slice` calls, as a non-strict total order for the model sort. -/
def priceLe (a b : PricePoint) : Prop := a.price ≤ b.price

instance : DecidableRel priceLe := fun a b => inferInstanceAs (Decidable (a.price ≤ b.price))

instance : IsTotal PricePoint priceLe := ⟨fun a b => le_total a.price b.price⟩

instance : IsTrans PricePoint priceLe := ⟨fun _ _ _ h h' => le_trans h h'⟩

/-- The strict price order (used only in proofs about price-distinct lists). -/
def priceLt (a b : PricePoint) : Prop := a.price < b.price

instance : IsAntisymm PricePoint priceLt := ⟨fun _ _ h h' => absurd (lt_trans h h') (lt_irrefl _)⟩

/-- Model of `sort.Slice(validPrices, func(i, j) { return Price[i] < Price[j] })`. -/
def sortByPrice (l : List PricePoint) : List PricePoint := l.insertionSort priceLe

/-- The staleness test `now.Sub(p.Timestamp) <= maxAge` (aggregator.go line 474). -/
def staleOk (now maxAge : ℚ) (p : PricePoint) : Bool := decide (now - p.timestamp ≤ maxAge)

/-- Stage 1: the stale filter loop (aggregator.go lines 472-479): the
working set of observations whose age is within `maxAge`. -/
def staleSurvivors (now maxAge : ℚ) (prices : List PricePoint) : List PricePoint :=
  prices.filter (staleOk now maxAge)

/-- Indexing `l[i]` of a Go slice, total via a default element; every use
in the model has `i < l.length`. -/
def pointAt (l : List PricePoint) (i : ℕ) : PricePoint := l.getD i default

/-- The IQR bounds test of aggregator.go lines 500-510 applied to one
observation `p` of the price-sorted working set `sorted1`:
`p.Price >= q1 - k*iqr && p.Price <= q3 + k*iqr` with
`q1 = sorted1[len/4].Price` and `q3 = sorted1[(len*3)/4].Price`. -/
def iqrKeep (k : ℚ) (sorted1 : List PricePoint) (p : PricePoint) : Bool :=
  let q1 := (pointAt sorted1 (sorted1.length / 4)).price
  let q3 := (pointAt sorted1 ((sorted1.length * 3) / 4)).price
  let iqr := q3 - q1
  decide (q1 - k * iqr ≤ p.price) && decide (p.price ≤ q3 + k * iqr)

/-- Stage 3 (aggregator.go lines 497-521): with fewer than 4 points the
IQR rejection is skipped, otherwise the price-sorted working set is
filtered to the observations inside the IQR bounds. -/
def iqrFilter (k : ℚ) (sorted1 : List PricePoint) : List PricePoint :=
  if sorted1.length < 4 then sorted1 else sorted1.filter (iqrKeep k sorted1)

/-- The working set after staleness filtering, price sort and IQR rejection. -/
def workingSet (now maxAge k : ℚ) (prices : List PricePoint) : List PricePoint :=
  iqrFilter k (sortByPrice (staleSurvivors now maxAge prices))

/-- The final valid set in the order produced by the second
`sort.Slice` call (aggregator.go lines 529-531). -/
def finalSorted (now maxAge k : ℚ) (prices : List PricePoint) : List PricePoint :=
  sortByPrice (workingSet now maxAge k prices)

/-- `totalStaticWeight` accumulation (aggregator.go lines 534-537). -/
def totalStaticWeight (l : List PricePoint) : ℚ := (l.map PricePoint.weight).sum

/-- `totalVolume` accumulation (aggregator.go lines 535-541): only
positive volumes are included. -/
def totalVolume (l : List PricePoint) : ℚ :=
  (l.map fun p => if p.volume > 0 then p.volume else 0).sum

/-- The dynamic weight of one observation (aggregator.go lines 572-579):
the static weight, boosted by `(1 + volume/V)` when both the total
positive volume `V` and the observation's volume are positive. -/
def dynamicWeight (V : ℚ) (p : PricePoint) : ℚ :=
  if V > 0 ∧ p.volume > 0 then p.weight * (1 + p.volume / V) else p.weight

/-- Sum of dynamic weights of a list given total volume `V`. -/
def sumDyn (V : ℚ) (l : List PricePoint) : ℚ := (l.map (dynamicWeight V)).sum

/-- `totalDynamicWeight` (aggregator.go lines 570-582). -/
def totalDynamicWeight (l : List PricePoint) : ℚ := sumDyn (totalVolume l) l

/-- Cumulative dynamic weight over the first `m` elements of `l`. -/
def prefixDyn (V : ℚ) (l : List PricePoint) (m : ℕ) : ℚ := sumDyn V (l.take m)

/-- Sum of all (also non-positive) volumes, as in the fallback branches
(aggregator.go lines 554-557 and 595-598). -/
def sumVolumes (l : List PricePoint) : ℚ := (l.map PricePoint.volume).sum

/-- The cumulative walk of aggregator.go lines 611-620: accumulate
dynamic weight in sort order and return the first observation whose
cumulative dynamic weight reaches `half`. -/
def weightedMedianWalk (V half acc : ℚ) : List PricePoint → Option PricePoint
  | [] => none
  | p :: ps =>
      if half ≤ acc + dynamicWeight V p then some p
      else weightedMedianWalk V half (acc + dynamicWeight V p) ps

/-- The error returns of `calculateAggregatePrice`, one constructor per
distinct error message. -/
inductive AggError where
  | noPrices
  | insufficientStale
  | insufficientOutliers
  | noValidFallback
  | noWeightedMedian
deriving DecidableEq, Repr

/-- The aggregate `common.PricePoint` returned on success. -/
structure AggResult where
  source : String
  price : ℚ
  volume : ℚ
  timestamp : ℚ
deriving DecidableEq, Repr

/-- The median index computation of the fallback branches
(aggregator.go lines 548-551 and 590-593): `medianIdx := n / 2`,
decremented when the count is even and the index positive. -/
def fallbackIdx (n : ℕ) : ℕ := if n % 2 = 0 ∧ 0 < n / 2 then n / 2 - 1 else n / 2

/-- The degenerate-weights fallback (aggregator.go lines 543-567 and
584-608, both branches are textually identical): the lower-middle simple
median of the price-sorted working set, provenance
`aggregated_fallback_median_dyn`, volume the sum of all volumes. -/
def fallbackMedian (validPrices : List PricePoint) : Except AggError AggResult :=
  if 0 < validPrices.length then
    .ok ⟨"aggregated_fallback_median_dyn",
         (pointAt validPrices (fallbackIdx validPrices.length)).price,
         sumVolumes validPrices,
         (pointAt validPrices (fallbackIdx validPrices.length)).timestamp⟩
  else .error .noValidFallback

/-- Stages 5-7 of `calculateAggregatePrice` (aggregator.go lines 528-637)
on the final price-sorted valid set. -/
def aggregateValid (validPrices : List PricePoint) : Except AggError AggResult :=
  if totalStaticWeight validPrices ≤ 0 then fallbackMedian validPrices
  else if totalDynamicWeight validPrices ≤ 0 then fallbackMedian validPrices
  else
    match weightedMedianWalk (totalVolume validPrices)
        (totalDynamicWeight validPrices * (1 / 2)) 0 validPrices with
    | some p => .ok ⟨"aggregated_vol_weighted_median", p.price, totalVolume validPrices, p.timestamp⟩
    | none => .error .noWeightedMedian

/-- Stages 3-7 of `calculateAggregatePrice` given the price-sorted
stale-surviving working set (aggregator.go lines 485-637). -/
def aggregateSorted (minSources : ℕ) (k : ℚ) (sorted1 : List PricePoint) :
    Except AggError AggResult :=
  if (iqrFilter k sorted1).length < minSources then .error .insufficientOutliers
  else aggregateValid (sortByPrice (iqrFilter k sorted1))

/-- `calculateAggregatePrice` (aggregator.go lines 463-637): stale
filter, pre-IQR minimum-sources gate, then stages 3-7. -/
def calculateAggregatePrice (now maxAge : ℚ) (minSources : ℕ) (k : ℚ)
    (prices : List PricePoint) : Except AggError AggResult :=
  if prices.length = 0 then .error .noPrices
  else if (staleSurvivors now maxAge prices).length < minSources then .error .insufficientStale
  else aggregateSorted minSources k (sortByPrice (staleSurvivors now maxAge prices))

/-! ## The Uniswap V3 subgraph pool fetcher (aggregator.go lines 358-456)

The network transport and JSON decoding are abstracted away: the model
starts from the decoded response body, with the numeric string fields
already parsed to rationals (`parseFloat` failures on the price are out
of scope of claim C7, which is about which of the two decoded pool
prices is selected). -/

/-- A decoded `pool` object of the subgraph response: the two token
prices, the pool USD volume and the two token symbols. -/
structure PoolData where
  token0Price : ℚ
  token1Price : ℚ
  volumeUSD : ℚ
  token0Symbol : String
  token1Symbol : String
deriving DecidableEq, Repr

/-- A decoded subgraph response: optional `pool` object plus whether the
`errors` array was non-empty. -/
structure UniswapResponse where
  pool : Option PoolData
  hasErrors : Bool
deriving DecidableEq, Repr

/-- The error returns of `fetchUniswapV3Price` past HTTP transport. -/
inductive UniswapFetchError where
  | subgraphErrors
  | poolNotFound
deriving DecidableEq, Repr

/-- The result-extraction tail of `fetchUniswapV3Price` (aggregator.go
lines 427-456): reject responses with errors or without a pool, then
build the observation.  Line 437 sets `priceStr := poolData.Token1Price`
unconditionally; the token symbols (and hence which token is the
requested quote asset) are never consulted, and the quote asset is not
even a parameter of the Go function. -/
def fetchUniswapV3PriceExtract (now : ℚ) (poolAddress : String)
    (resp : UniswapResponse) : Except UniswapFetchError PricePoint :=
  if resp.hasErrors then .error .subgraphErrors
  else
    match resp.pool with
    | none => .error .poolNotFound
    | some poolData =>
        .ok { source := "uniswap_v3:" ++ poolAddress
              price := poolData.token1Price
              volume := poolData.volumeUSD
              timestamp := now
              weight := 0 }

/-! ## Configuration validation (config.go lines 26-146)

Go maps keyed by ID are embedded as lists (of keys, or of records
carrying their ID); the overall accept/reject outcome of
`ValidateLoadedConfig` does not depend on map iteration order, so the
validation is embedded as a boolean over these lists. -/

/-- `common.Source` kinds distinguished by the validation. -/
inductive SourceType where
  | cexTicker
  | dexRPC
  | dexSubgraph
  | other
deriving DecidableEq, Repr

/-- A `common.Source` entry, restricted to the fields the validation reads. -/
structure ConfigSource where
  id : String
  srcType : SourceType
  chainID : String
deriving DecidableEq, Repr

/-- `common.AggregationParams`, restricted to the field the validation reads. -/
structure AggregationParams where
  minimumSources : ℤ
deriving DecidableEq, Repr

/-- A `common.PairConfig` entry, restricted to the fields the validation reads. -/
structure ConfigPair where
  id : String
  baseAsset : String
  quoteAsset : String
  chainID : String
  sourceIDs : List String
  sourceWeights : List (String × ℚ)
  aggregation : AggregationParams
deriving DecidableEq, Repr

/-- `common.LoadedConfig`: chains and assets are represented by their
key sets, sources and pairs by their entries. -/
structure LoadedConfig where
  chains : List String
  assets : List String
  sources : List ConfigSource
  pairs : List ConfigPair
deriving DecidableEq, Repr

/-- The per-source checks of `ValidateLoadedConfig` (config.go lines
94-104): DEX-kind sources need a chain ID referencing a known chain. -/
def validSource (cfg : LoadedConfig) (s : ConfigSource) : Bool :=
  if s.srcType = .dexRPC ∨ s.srcType = .dexSubgraph then
    !(s.chainID = "") && cfg.chains.contains s.chainID
  else true

/-- The per-source-of-pair checks of `ValidateLoadedConfig` (config.go
lines 128-141): the source exists, the pair has a weight entry for it,
and a chain-carrying source matches a chain-specific pair's chain. -/
def validPairSource (cfg : LoadedConfig) (pair : ConfigPair) (sid : String) : Bool :=
  (cfg.sources.find? (fun s => s.id = sid)).isSome &&
  (pair.sourceWeights.lookup sid).isSome &&
  (match cfg.sources.find? (fun s => s.id = sid) with
   | some src => !(src.chainID ≠ "" ∧ pair.chainID ≠ "global" ∧ src.chainID ≠ pair.chainID)
   | none => true)

/-- The per-pair checks of `ValidateLoadedConfig` (config.go lines
107-143).  Note that nothing about the weights is checked beyond the
presence of an entry per source (the sign check is only a comment in the
code, config.go line 142). -/
def validPair (cfg : LoadedConfig) (pair : ConfigPair) : Bool :=
  cfg.assets.contains pair.baseAsset &&
  cfg.assets.contains pair.quoteAsset &&
  (pair.chainID = "" ∨ pair.chainID = "global" ∨ cfg.chains.contains pair.chainID) &&
  !(pair.sourceIDs = []) &&
  decide (0 < pair.aggregation.minimumSources) &&
  decide (pair.aggregation.minimumSources ≤ pair.sourceIDs.length) &&
  pair.sourceIDs.all (validPairSource cfg pair)

/-- `ValidateLoadedConfig` (config.go lines 75-146) as its accept/reject
outcome.  The emptiness check on chains is commented out in the code
(lines 79-82) and therefore absent here; the nil-pointer check has no
counterpart in the model. -/
def validateLoadedConfig (cfg : LoadedConfig) : Bool :=
  !(cfg.assets = []) && !(cfg.sources = []) && !(cfg.pairs = []) &&
  cfg.sources.all (validSource cfg) &&
  cfg.pairs.all (validPair cfg)

/-- `LoadAllConfigs` (config.go lines 26-72) past file IO and JSON
decoding: the loaded configuration is returned iff validation passes. -/
def loadAllConfigs (cfg : LoadedConfig) : Option LoadedConfig :=
  if validateLoadedConfig cfg then some cfg else none

/-! ## Detail cache and `AggregateFeed` (modelled from the spec)

The fetch orchestrator and the detail cache (`AggregateFeed`,
`GetLastAggregationDetails`, the `Store`/`Fetch` cache contract) are not
among the sources at hand; only their HTTP caller
(`handleGetSourceDetails`) is.  They are modelled from the spec, §4.3,
§4.5 and §8 invariant 3. -/

/-- Modelled from the spec: the per-observation status enum
{`valid`, `stale`, `outlier`, `fetch_error`} (spec §3, Observation). -/
inductive ObsStatus where
  | valid
  | stale
  | outlier
  | fetchError
deriving DecidableEq, Repr

/-- Modelled from the spec: an observation tagged with its status. -/
structure AnnotatedObs where
  obs : PricePoint
  status : ObsStatus
deriving DecidableEq, Repr

/-- Modelled from the spec: the outcome of one source fetch handed to
the orchestrator — either a successful observation or a synthesized
fetch-error observation (spec §4.3 step 3). -/
inductive FetchOutcome where
  | success (p : PricePoint)
  | failure (p : PricePoint)
deriving DecidableEq, Repr

/-- The successful observations of a list of fetch outcomes. -/
def successfulObs (fetched : List FetchOutcome) : List PricePoint :=
  fetched.filterMap fun r =>
    match r with
    | .success p => some p
    | .failure _ => none

/-- Modelled from the spec: the status the pipeline assigns to one
successfully fetched observation (spec §4.4 stages 1 and 3): `stale` if
over-age, `outlier` if it fails the IQR bounds of the stale-surviving
working set when that set has at least 4 points, `valid` otherwise. -/
def pipelineStatus (now maxAge k : ℚ) (fetched : List FetchOutcome) (p : PricePoint) : ObsStatus :=
  let sorted1 := sortByPrice (staleSurvivors now maxAge (successfulObs fetched))
  if ¬ staleOk now maxAge p then .stale
  else if 4 ≤ sorted1.length ∧ ¬ iqrKeep k sorted1 p then .outlier
  else .valid

/-- Modelled from the spec: the annotated observation list produced for
one `AggregateFeed` call — every fetch outcome yields exactly one
annotated observation (spec §4.3 steps 3-6, §4.4 Result). -/
def annotateObs (now maxAge k : ℚ) (fetched : List FetchOutcome) : List AnnotatedObs :=
  fetched.map fun r =>
    match r with
    | .failure p => ⟨p, .fetchError⟩
    | .success p => ⟨p, pipelineStatus now maxAge k fetched p⟩

/-- Modelled from the spec: the detail cache, a map from feed ID to the
last annotated observation list (spec §4.5). -/
def DetailCache : Type := List (String × List AnnotatedObs)

/-- Modelled from the spec: `Store(feedID, observations)` overwrites the
prior entry for that feed (spec §4.5). -/
def storeDetails (cache : DetailCache) (feedID : String) (obs : List AnnotatedObs) : DetailCache :=
  (feedID, obs) :: (List.filter (fun e => !(e.1 = feedID)) cache)

/-- Modelled from the spec: `Fetch(feedID)`, i.e.
`GetLastAggregationDetails`: the cached annotated observations, or
`NotFound` (`none`) when no aggregation has been attempted for the feed.
Lean values are immutable, so returning the stored list is the deep
copy the spec requires (spec §4.5). -/
def fetchDetails (cache : DetailCache) (feedID : String) : Option (List AnnotatedObs) :=
  List.lookup feedID cache

/-- Modelled from the spec: the empty cache before any aggregation. -/
def emptyCache : DetailCache := []

/-- Modelled from the spec: `AggregateFeed` (spec §4.3): run the
aggregation pipeline over the successful observations, write the
annotated observation set of this call to the detail cache whether or
not the pipeline succeeded, and return the pipeline's result. -/
def aggregateFeed (now maxAge : ℚ) (minSources : ℕ) (k : ℚ) (feedID : String)
    (fetched : List FetchOutcome) (cache : DetailCache) :
    Except AggError AggResult × DetailCache :=
  (calculateAggregatePrice now maxAge minSources k (successfulObs fetched),
   storeDetails cache feedID (annotateObs now maxAge k fetched))

/-- The lower-middle median index of the spec (§4.4 stage 5b):
`⌊n/2⌋ - 1` for even `n`, `⌊n/2⌋` for odd `n`. -/
def lowerMiddleIdx (n : ℕ) : ℕ := if n % 2 = 0 then n / 2 - 1 else n / 2

/-! ## Helper lemmas -/

theorem totalStaticWeight_ne_nil {l : List PricePoint}
    (h : 0 < totalStaticWeight l) : l ≠ [] := by
  intro he
  subst he
  simp [totalStaticWeight] at h

theorem sumDyn_cons (V : ℚ) (q : PricePoint) (qs : List PricePoint) :
    sumDyn V (q :: qs) = dynamicWeight V q + sumDyn V qs := by
  simp [sumDyn]

theorem prefixDyn_cons (V : ℚ) (q : PricePoint) (qs : List PricePoint) (m : ℕ) :
    prefixDyn V (q :: qs) (m + 1) = dynamicWeight V q + prefixDyn V qs m := by
  simp [prefixDyn, sumDyn]

theorem prefixDyn_one (V : ℚ) (q : PricePoint) (qs : List PricePoint) :
    prefixDyn V (q :: qs) 1 = dynamicWeight V q := by
  simp [prefixDyn, sumDyn]

/-- The cumulative walk succeeds whenever the whole cumulative sum would
reach the threshold and the list is non-empty. -/
theorem weightedMedianWalk_isSome (V half : ℚ) (l : List PricePoint) :
    ∀ acc, l ≠ [] → half ≤ acc + sumDyn V l →
    (weightedMedianWalk V half acc l).isSome := by
  induction l with
  | nil =>
    intro acc hne _
    exact absurd rfl hne
  | cons p ps ih =>
    intro acc _ h
    rw [weightedMedianWalk]
    by_cases hc : half ≤ acc + dynamicWeight V p
    · simp [hc]
    · rw [if_neg hc]
      rcases ps with _ | ⟨q, qs⟩
      · exact absurd (by simpa [sumDyn_cons, sumDyn] using h) hc
      · refine ih (acc + dynamicWeight V p) (by simp) ?_
        have hs : sumDyn V (p :: q :: qs) = dynamicWeight V p + sumDyn V (q :: qs) :=
          sumDyn_cons V p (q :: qs)
        linarith

/-- What a successful cumulative walk returns: the first element of the
list whose cumulative dynamic weight reaches the threshold. -/
theorem weightedMedianWalk_spec (V half : ℚ) (l : List PricePoint) :
    ∀ acc p, weightedMedianWalk V half acc l = some p →
    ∃ i, ∃ hi : i < l.length, p = l.get ⟨i, hi⟩ ∧
      half ≤ acc + prefixDyn V l (i + 1) ∧
      ∀ j < i, acc + prefixDyn V l (j + 1) < half := by
  induction l with
  | nil =>
    intro acc p h
    simp [weightedMedianWalk] at h
  | cons q qs ih =>
    intro acc p h
    rw [weightedMedianWalk] at h
    by_cases hc : half ≤ acc + dynamicWeight V q
    · rw [if_pos hc] at h
      obtain rfl := Option.some_injective _ h
      refine ⟨0, by simp, rfl, ?_, fun j hj => absurd hj (Nat.not_lt_zero j)⟩
      rw [prefixDyn_one]
      exact hc
    · rw [if_neg hc] at h
      obtain ⟨i, hi, hpi, hge, hlt⟩ := ih (acc + dynamicWeight V q) p h
      refine ⟨i + 1, by simpa using Nat.succ_lt_succ hi, hpi, ?_, ?_⟩
      · rw [prefixDyn_cons]
        linarith
      · intro j hj
        cases j with
        | zero =>
          rw [zero_add, prefixDyn_one]
          exact lt_of_not_ge hc
        | succ j' =>
          have hj' := hlt j' (by omega)
          rw [prefixDyn_cons]
          linarith

theorem fallbackMedian_ne_stale_outlier_median (l : List PricePoint) :
    fallbackMedian l ≠ .error .insufficientStale ∧
    fallbackMedian l ≠ .error .insufficientOutliers ∧
    fallbackMedian l ≠ .error .noWeightedMedian := by
  unfold fallbackMedian
  split <;> simp

theorem aggregateValid_ne_stale_outlier (l : List PricePoint) :
    aggregateValid l ≠ .error .insufficientStale ∧
    aggregateValid l ≠ .error .insufficientOutliers := by
  unfold aggregateValid
  obtain ⟨h1, h2, _⟩ := fallbackMedian_ne_stale_outlier_median l
  split
  · exact ⟨h1, h2⟩
  · split
    · exact ⟨h1, h2⟩
    · split <;> simp

/-- Past the input-emptiness check and the two minimum-sources gates,
`calculateAggregatePrice` is the weight stage on the final sorted set. -/
theorem calculateAggregatePrice_eq_valid (now maxAge : ℚ) (minSources : ℕ) (k : ℚ)
    (prices : List PricePoint) (hne : prices ≠ [])
    (h1 : minSources ≤ (staleSurvivors now maxAge prices).length)
    (h2 : minSources ≤ (workingSet now maxAge k prices).length) :
    calculateAggregatePrice now maxAge minSources k prices =
      aggregateValid (finalSorted now maxAge k prices) := by
  have hlen : ¬ prices.length = 0 := by
    simpa using fun h => hne (List.length_eq_zero.mp h)
  rw [calculateAggregatePrice, if_neg hlen, if_neg (not_lt.mpr h1), aggregateSorted,
    if_neg (not_lt.mpr (show minSources ≤ (iqrFilter k (sortByPrice
      (staleSurvivors now maxAge prices))).length from h2))]
  rfl

theorem aggregateValid_ne_noWeightedMedian (l : List PricePoint) :
    aggregateValid l ≠ .error .noWeightedMedian := by
  rw [aggregateValid]
  obtain ⟨_, _, h3⟩ := fallbackMedian_ne_stale_outlier_median l
  by_cases hS : totalStaticWeight l ≤ 0
  · rw [if_pos hS]
    exact h3
  · rw [if_neg hS]
    by_cases hD : totalDynamicWeight l ≤ 0
    · rw [if_pos hD]
      exact h3
    · rw [if_neg hD]
      have hne : l ≠ [] := totalStaticWeight_ne_nil (lt_of_not_ge hS)
      have hsome := weightedMedianWalk_isSome (totalVolume l)
        (totalDynamicWeight l * (1 / 2)) l 0 hne (by
          have hsd : sumDyn (totalVolume l) l = totalDynamicWeight l := rfl
          have hDpos : 0 < totalDynamicWeight l := lt_of_not_ge hD
          rw [zero_add, hsd]
          linarith)
      obtain ⟨p, hp⟩ := Option.isSome_iff_exists.mp hsome
      rw [hp]
      simp

/-! ## The claims -/

/-- C10: whenever the total dynamic weight is positive the cumulative
walk selects an observation before exhausting the sorted working set, so
the defensive branch returning the error "failed to determine
volume-enhanced weighted median price point" (aggregator.go lines
622-625) is unreachable: no input makes `calculateAggregatePrice` return
it. -/
theorem c10_no_weighted_median_unreachable (now maxAge : ℚ) (minSources : ℕ) (k : ℚ)
    (prices : List PricePoint) :
    calculateAggregatePrice now maxAge minSources k prices ≠ .error .noWeightedMedian := by
  rw [calculateAggregatePrice]
  split
  · simp
  · split
    · simp
    · rw [aggregateSorted]
      split
      · simp
      · exact aggregateValid_ne_noWeightedMedian _

/-- C1: for a working set that survives both minimum-sources gates and
has positive total static weight S and positive total dynamic weight D,
the result is the first observation of the price-sorted valid set whose
cumulative dynamic weight reaches `0.5 * D`; the result carries that
observation's price and timestamp, the total positive volume, and the
provenance string `aggregated_vol_weighted_median`; the dynamic weight
of each observation is `static_weight * (1 + volume/V)` when `V > 0` and
its volume is positive, and its static weight otherwise. -/
theorem c1_volume_weighted_median (now maxAge k : ℚ) (minSources : ℕ)
    (prices : List PricePoint) (hne : prices ≠ [])
    (h1 : minSources ≤ (staleSurvivors now maxAge prices).length)
    (h2 : minSources ≤ (workingSet now maxAge k prices).length)
    (hS : 0 < totalStaticWeight (finalSorted now maxAge k prices))
    (hD : 0 < totalDynamicWeight (finalSorted now maxAge k prices)) :
    ∃ i, ∃ hi : i < (finalSorted now maxAge k prices).length,
      calculateAggregatePrice now maxAge minSources k prices =
        .ok ⟨"aggregated_vol_weighted_median",
             ((finalSorted now maxAge k prices).get ⟨i, hi⟩).price,
             totalVolume (finalSorted now maxAge k prices),
             ((finalSorted now maxAge k prices).get ⟨i, hi⟩).timestamp⟩ ∧
      totalDynamicWeight (finalSorted now maxAge k prices) * (1 / 2) ≤
        prefixDyn (totalVolume (finalSorted now maxAge k prices))
          (finalSorted now maxAge k prices) (i + 1) ∧
      (∀ j < i, prefixDyn (totalVolume (finalSorted now maxAge k prices))
          (finalSorted now maxAge k prices) (j + 1) <
        totalDynamicWeight (finalSorted now maxAge k prices) * (1 / 2)) ∧
      (∀ p : PricePoint, dynamicWeight (totalVolume (finalSorted now maxAge k prices)) p =
        if totalVolume (finalSorted now maxAge k prices) > 0 ∧ p.volume > 0 then
          p.weight * (1 + p.volume / totalVolume (finalSorted now maxAge k prices))
        else p.weight) := by
  have hcalc := calculateAggregatePrice_eq_valid now maxAge minSources k prices hne h1 h2
  have hfsne : finalSorted now maxAge k prices ≠ [] := totalStaticWeight_ne_nil hS
  have hsome := weightedMedianWalk_isSome (totalVolume (finalSorted now maxAge k prices))
    (totalDynamicWeight (finalSorted now maxAge k prices) * (1 / 2))
    (finalSorted now maxAge k prices) 0 hfsne (by
      have hsd : sumDyn (totalVolume (finalSorted now maxAge k prices))
          (finalSorted now maxAge k prices) =
          totalDynamicWeight (finalSorted now maxAge k prices) := rfl
      rw [zero_add, hsd]
      linarith)
  obtain ⟨p, hp⟩ := Option.isSome_iff_exists.mp hsome
  obtain ⟨i, hi, hpi, hge, hlt⟩ := weightedMedianWalk_spec _ _ _ 0 p hp
  refine ⟨i, hi, ?_, ?_, ?_, fun q => rfl⟩
  · rw [hcalc, aggregateValid, if_neg (not_le.mpr hS), if_neg (not_le.mpr hD), hp]
    rw [hpi]
  · rw [zero_add] at hge
    exact hge
  · intro j hj
    have := hlt j hj
    rw [zero_add] at this
    exact this

/-- Witness for C1 at a concrete three-source working set. -/
theorem c1_volume_weighted_median_witness :
    ∃ i, ∃ hi : i < (finalSorted 0 60 (3 / 2)
        [⟨"a", 10, 0, 0, 1⟩, ⟨"b", 20, 0, 0, 1⟩, ⟨"c", 30, 0, 0, 1⟩]).length,
      calculateAggregatePrice 0 60 3 (3 / 2)
          [⟨"a", 10, 0, 0, 1⟩, ⟨"b", 20, 0, 0, 1⟩, ⟨"c", 30, 0, 0, 1⟩] =
        .ok ⟨"aggregated_vol_weighted_median",
             ((finalSorted 0 60 (3 / 2)
                [⟨"a", 10, 0, 0, 1⟩, ⟨"b", 20, 0, 0, 1⟩, ⟨"c", 30, 0, 0, 1⟩]).get ⟨i, hi⟩).price,
             totalVolume (finalSorted 0 60 (3 / 2)
                [⟨"a", 10, 0, 0, 1⟩, ⟨"b", 20, 0, 0, 1⟩, ⟨"c", 30, 0, 0, 1⟩]),
             ((finalSorted 0 60 (3 / 2)
                [⟨"a", 10, 0, 0, 1⟩, ⟨"b", 20, 0, 0, 1⟩, ⟨"c", 30, 0, 0, 1⟩]).get ⟨i, hi⟩).timestamp⟩ ∧
      totalDynamicWeight (finalSorted 0 60 (3 / 2)
          [⟨"a", 10, 0, 0, 1⟩, ⟨"b", 20, 0, 0, 1⟩, ⟨"c", 30, 0, 0, 1⟩]) * (1 / 2) ≤
        prefixDyn (totalVolume (finalSorted 0 60 (3 / 2)
            [⟨"a", 10, 0, 0, 1⟩, ⟨"b", 20, 0, 0, 1⟩, ⟨"c", 30, 0, 0, 1⟩]))
          (finalSorted 0 60 (3 / 2)
            [⟨"a", 10, 0, 0, 1⟩, ⟨"b", 20, 0, 0, 1⟩, ⟨"c", 30, 0, 0, 1⟩]) (i + 1) ∧
      (∀ j < i, prefixDyn (totalVolume (finalSorted 0 60 (3 / 2)
            [⟨"a", 10, 0, 0, 1⟩, ⟨"b", 20, 0, 0, 1⟩, ⟨"c", 30, 0, 0, 1⟩]))
          (finalSorted 0 60 (3 / 2)
            [⟨"a", 10, 0, 0, 1⟩, ⟨"b", 20, 0, 0, 1⟩, ⟨"c", 30, 0, 0, 1⟩]) (j + 1) <
        totalDynamicWeight (finalSorted 0 60 (3 / 2)
            [⟨"a", 10, 0, 0, 1⟩, ⟨"b", 20, 0, 0, 1⟩, ⟨"c", 30, 0, 0, 1⟩]) * (1 / 2)) ∧
      (∀ p : PricePoint, dynamicWeight (totalVolume (finalSorted 0 60 (3 / 2)
            [⟨"a", 10, 0, 0, 1⟩, ⟨"b", 20, 0, 0, 1⟩, ⟨"c", 30, 0, 0, 1⟩])) p =
        if totalVolume (finalSorted 0 60 (3 / 2)
            [⟨"a", 10, 0, 0, 1⟩, ⟨"b", 20, 0, 0, 1⟩, ⟨"c", 30, 0, 0, 1⟩]) > 0 ∧ p.volume > 0 then
          p.weight * (1 + p.volume / totalVolume (finalSorted 0 60 (3 / 2)
            [⟨"a", 10, 0, 0, 1⟩, ⟨"b", 20, 0, 0, 1⟩, ⟨"c", 30, 0, 0, 1⟩]))
        else p.weight) :=
  c1_volume_weighted_median 0 60 (3 / 2) 3
    [⟨"a", 10, 0, 0, 1⟩, ⟨"b", 20, 0, 0, 1⟩, ⟨"c", 30, 0, 0, 1⟩]
    (by simp)
    (by norm_num [staleSurvivors, staleOk])
    (by norm_num [workingSet, iqrFilter, sortByPrice, List.insertionSort, List.orderedInsert,
      priceLe, staleSurvivors, staleOk])
    (by norm_num [finalSorted, workingSet, iqrFilter, sortByPrice, List.insertionSort,
      List.orderedInsert, priceLe, staleSurvivors, staleOk, totalStaticWeight])
    (by norm_num [finalSorted, workingSet, iqrFilter, sortByPrice, List.insertionSort,
      List.orderedInsert, priceLe, staleSurvivors, staleOk, totalDynamicWeight, sumDyn,
      dynamicWeight, totalVolume])

theorem count_filter_eq (l : List PricePoint) (f : PricePoint → Bool) (a : PricePoint) :
    (l.filter f).count a = if f a then l.count a else 0 := by
  by_cases h : f a
  · rw [if_pos h, List.count_filter h]
  · rw [if_neg h]
    refine List.count_eq_zero.mpr fun hm => h (List.of_mem_filter hm)

/-- C2: outlier rejection is skipped below 4 observations (no
observation is discarded), and with at least 4 an observation is kept
iff its price lies inside `[Q1 - k*IQR, Q3 + k*IQR]`, with Q1 and Q3 the
prices at indices `n/4` and `3n/4` of the price-sorted working set —
i.e. it is discarded as an outlier iff its price lies strictly outside
the interval.  Stated with multiset counts over the stale-surviving
working set `ws`. -/
theorem c2_iqr_outlier_rejection (k : ℚ) (ws : List PricePoint) :
    (ws.length < 4 → ∀ p : PricePoint,
      (iqrFilter k (sortByPrice ws)).count p = ws.count p) ∧
    (4 ≤ ws.length → ∀ p : PricePoint,
      (iqrFilter k (sortByPrice ws)).count p =
        if (pointAt (sortByPrice ws) (ws.length / 4)).price
              - k * ((pointAt (sortByPrice ws) (ws.length * 3 / 4)).price
                     - (pointAt (sortByPrice ws) (ws.length / 4)).price) ≤ p.price ∧
           p.price ≤ (pointAt (sortByPrice ws) (ws.length * 3 / 4)).price
              + k * ((pointAt (sortByPrice ws) (ws.length * 3 / 4)).price
                     - (pointAt (sortByPrice ws) (ws.length / 4)).price)
        then ws.count p else 0) := by
  have hlen : (sortByPrice ws).length = ws.length := List.length_insertionSort priceLe ws
  have hperm : (sortByPrice ws).Perm ws := List.perm_insertionSort priceLe ws
  constructor
  · intro h4 p
    rw [iqrFilter, if_pos (by rw [hlen]; exact h4)]
    exact hperm.count_eq p
  · intro h4 p
    rw [iqrFilter, if_neg (by rw [hlen]; omega), count_filter_eq, hperm.count_eq p]
    have hkeep : (iqrKeep k (sortByPrice ws) p = true) ↔
        ((pointAt (sortByPrice ws) (ws.length / 4)).price
              - k * ((pointAt (sortByPrice ws) (ws.length * 3 / 4)).price
                     - (pointAt (sortByPrice ws) (ws.length / 4)).price) ≤ p.price ∧
         p.price ≤ (pointAt (sortByPrice ws) (ws.length * 3 / 4)).price
              + k * ((pointAt (sortByPrice ws) (ws.length * 3 / 4)).price
                     - (pointAt (sortByPrice ws) (ws.length / 4)).price)) := by
      rw [iqrKeep]
      simp only [hlen, Bool.and_eq_true, decide_eq_true_eq]
    exact if_congr hkeep rfl rfl

/-- Witness for C2: in the five-source scenario of the spec (§8, S2) the
far observation at price 2000 is discarded. -/
theorem c2_iqr_outlier_rejection_witness :
    (iqrFilter (3 / 2) (sortByPrice
      [⟨"a", 1646, 10, 0, 1 / 4⟩, ⟨"b", 6593 / 4, 10, 0, 1 / 4⟩, ⟨"c", 1647, 10, 0, 1 / 4⟩,
       ⟨"d", 6595 / 4, 10, 0, 1 / 4⟩, ⟨"e", 2000, 10, 0, 1 / 4⟩])).count
      ⟨"e", 2000, 10, 0, 1 / 4⟩ = 0 :=
  ((c2_iqr_outlier_rejection (3 / 2)
      [⟨"a", 1646, 10, 0, 1 / 4⟩, ⟨"b", 6593 / 4, 10, 0, 1 / 4⟩, ⟨"c", 1647, 10, 0, 1 / 4⟩,
       ⟨"d", 6595 / 4, 10, 0, 1 / 4⟩, ⟨"e", 2000, 10, 0, 1 / 4⟩]).2 (by norm_num)
      ⟨"e", 2000, 10, 0, 1 / 4⟩).trans (by
    norm_num [sortByPrice, List.insertionSort, List.orderedInsert, priceLe, pointAt])

/-- C3: with a non-empty input (the caller checks the source count
before aggregating), the two `InsufficientSources` errors occur exactly
when the working set falls below `minimumSources` after the staleness
filter (reason stale) respectively after IQR outlier rejection (reason
outliers); consequently every produced aggregate comes from a working
set of at least `minimumSources` observations. -/
theorem c3_insufficient_sources (now maxAge k : ℚ) (minSources : ℕ)
    (prices : List PricePoint) (hne : prices ≠ []) :
    (calculateAggregatePrice now maxAge minSources k prices = .error .insufficientStale ↔
      (staleSurvivors now maxAge prices).length < minSources) ∧
    (calculateAggregatePrice now maxAge minSources k prices = .error .insufficientOutliers ↔
      (minSources ≤ (staleSurvivors now maxAge prices).length ∧
       (workingSet now maxAge k prices).length < minSources)) ∧
    (∀ r : AggResult, calculateAggregatePrice now maxAge minSources k prices = .ok r →
      minSources ≤ (workingSet now maxAge k prices).length) := by
  have hlen : ¬ prices.length = 0 := by
    simpa using fun h => hne (List.length_eq_zero.mp h)
  rw [calculateAggregatePrice, if_neg hlen]
  by_cases g1 : (staleSurvivors now maxAge prices).length < minSources
  · rw [if_pos g1]
    refine ⟨by simp [g1], ⟨fun h => absurd h (by simp), fun h => absurd g1 (not_lt.mpr h.1)⟩,
      fun r hr => absurd hr (by simp)⟩
  · rw [if_neg g1, aggregateSorted]
    by_cases g2 : (iqrFilter k (sortByPrice (staleSurvivors now maxAge prices))).length
        < minSources
    · rw [if_pos g2]
      refine ⟨⟨fun h => absurd h (by simp), fun h => absurd h g1⟩,
        ⟨fun _ => ⟨not_lt.mp g1, g2⟩, fun _ => rfl⟩,
        fun r hr => absurd hr (by simp)⟩
    · rw [if_neg g2]
      obtain ⟨hs, ho⟩ := aggregateValid_ne_stale_outlier
        (sortByPrice (iqrFilter k (sortByPrice (staleSurvivors now maxAge prices))))
      refine ⟨⟨fun h => absurd h hs, fun h => absurd h g1⟩,
        ⟨fun h => absurd h ho, fun h => absurd h.2 (by exact not_lt.mpr (not_lt.mp g2))⟩,
        fun r _ => not_lt.mp g2⟩

/-- Witness for C3: two sources, one of which is over-age at `now = 100`
with `maxAge = 60`, against `minimumSources = 2`. -/
theorem c3_insufficient_sources_witness :
    calculateAggregatePrice 100 60 2 (3 / 2)
      [⟨"a", 10, 0, 1, 1⟩, ⟨"b", 11, 0, 99, 1⟩] = .error .insufficientStale :=
  (c3_insufficient_sources 100 60 (3 / 2) 2 [⟨"a", 10, 0, 1, 1⟩, ⟨"b", 11, 0, 99, 1⟩]
    (by simp)).1.mpr (by norm_num [staleSurvivors, staleOk])

theorem fallbackIdx_eq_lowerMiddleIdx (n : ℕ) (h : 0 < n) :
    fallbackIdx n = lowerMiddleIdx n := by
  rw [fallbackIdx, lowerMiddleIdx]
  split_ifs <;> omega

/-- C4: whenever the final working set has non-positive total static or
total dynamic weight, the result is the lower-middle simple median of
the price-sorted working set (index `n/2 - 1` for even `n`, `n/2` for
odd `n`), with provenance `aggregated_fallback_median_dyn` and the sum
of all volumes as aggregate volume. -/
theorem c4_fallback_median (now maxAge k : ℚ) (minSources : ℕ)
    (prices : List PricePoint) (hne : prices ≠ [])
    (h1 : minSources ≤ (staleSurvivors now maxAge prices).length)
    (h2 : minSources ≤ (workingSet now maxAge k prices).length)
    (hpos : 0 < (workingSet now maxAge k prices).length)
    (hSD : totalStaticWeight (finalSorted now maxAge k prices) ≤ 0 ∨
           totalDynamicWeight (finalSorted now maxAge k prices) ≤ 0) :
    calculateAggregatePrice now maxAge minSources k prices =
      .ok ⟨"aggregated_fallback_median_dyn",
           (pointAt (finalSorted now maxAge k prices)
             (lowerMiddleIdx (finalSorted now maxAge k prices).length)).price,
           sumVolumes (finalSorted now maxAge k prices),
           (pointAt (finalSorted now maxAge k prices)
             (lowerMiddleIdx (finalSorted now maxAge k prices).length)).timestamp⟩ := by
  have hcalc := calculateAggregatePrice_eq_valid now maxAge minSources k prices hne h1 h2
  have hfslen : 0 < (finalSorted now maxAge k prices).length := by
    have he : (finalSorted now maxAge k prices).length =
        (workingSet now maxAge k prices).length :=
      List.length_insertionSort priceLe (workingSet now maxAge k prices)
    omega
  have hfb : fallbackMedian (finalSorted now maxAge k prices) =
      .ok ⟨"aggregated_fallback_median_dyn",
           (pointAt (finalSorted now maxAge k prices)
             (lowerMiddleIdx (finalSorted now maxAge k prices).length)).price,
           sumVolumes (finalSorted now maxAge k prices),
           (pointAt (finalSorted now maxAge k prices)
             (lowerMiddleIdx (finalSorted now maxAge k prices).length)).timestamp⟩ := by
    rw [fallbackMedian, if_pos hfslen,
      fallbackIdx_eq_lowerMiddleIdx (finalSorted now maxAge k prices).length hfslen]
  rw [hcalc, aggregateValid]
  rcases hSD with hS | hD
  · rw [if_pos hS]
    exact hfb
  · by_cases hS : totalStaticWeight (finalSorted now maxAge k prices) ≤ 0
    · rw [if_pos hS]
      exact hfb
    · rw [if_neg hS, if_pos hD]
      exact hfb

/-- Witness for C4: the degenerate-weights scenario of the spec (§8,
S5): three fresh observations at 10, 20, 30 with all static weights 0
and all volumes 0 yield price 20, volume 0, fallback provenance. -/
theorem c4_fallback_median_witness :
    calculateAggregatePrice 0 60 3 (3 / 2)
      [⟨"a", 10, 0, 0, 0⟩, ⟨"b", 20, 0, 0, 0⟩, ⟨"c", 30, 0, 0, 0⟩] =
      .ok ⟨"aggregated_fallback_median_dyn", 20, 0, 0⟩ :=
  (c4_fallback_median 0 60 (3 / 2) 3 [⟨"a", 10, 0, 0, 0⟩, ⟨"b", 20, 0, 0, 0⟩, ⟨"c", 30, 0, 0, 0⟩]
    (by simp)
    (by norm_num [staleSurvivors, staleOk])
    (by norm_num [workingSet, iqrFilter, sortByPrice, List.insertionSort, List.orderedInsert,
      priceLe, staleSurvivors, staleOk])
    (by norm_num [workingSet, iqrFilter, sortByPrice, List.insertionSort, List.orderedInsert,
      priceLe, staleSurvivors, staleOk])
    (Or.inl (by norm_num [finalSorted, workingSet, iqrFilter, sortByPrice, List.insertionSort,
      List.orderedInsert, priceLe, staleSurvivors, staleOk, totalStaticWeight]))).trans (by
    norm_num [finalSorted, workingSet, iqrFilter, sortByPrice, List.insertionSort,
      List.orderedInsert, priceLe, staleSurvivors, staleOk, pointAt, lowerMiddleIdx, sumVolumes])

theorem totalVolume_cons (p : PricePoint) (ps : List PricePoint) :
    totalVolume (p :: ps) = (if p.volume > 0 then p.volume else 0) + totalVolume ps := by
  simp [totalVolume]

theorem sumVolumes_cons (p : PricePoint) (ps : List PricePoint) :
    sumVolumes (p :: ps) = p.volume + sumVolumes ps := by
  simp [sumVolumes]

/-- When every volume is non-negative, the positive-volume accumulation
of the code agrees with the plain sum of volumes. -/
theorem totalVolume_eq_sumVolumes {l : List PricePoint} (h : ∀ p ∈ l, 0 ≤ p.volume) :
    totalVolume l = sumVolumes l := by
  induction l with
  | nil => rfl
  | cons p ps ih =>
    have hp := h p (List.mem_cons_self p ps)
    have hps := ih fun q hq => h q (List.mem_cons_of_mem p hq)
    rw [totalVolume_cons, sumVolumes_cons, hps]
    by_cases hc : p.volume > 0
    · rw [if_pos hc]
    · rw [if_neg hc, le_antisymm (not_lt.mp hc) hp]

/-- Every member of the final sorted valid set is one of the input
observations. -/
theorem mem_of_mem_finalSorted (now maxAge k : ℚ) (prices : List PricePoint)
    {p : PricePoint} (h : p ∈ finalSorted now maxAge k prices) : p ∈ prices := by
  have h1 : p ∈ workingSet now maxAge k prices :=
    ((List.perm_insertionSort priceLe (workingSet now maxAge k prices)).mem_iff).mp h
  have h2 : p ∈ sortByPrice (staleSurvivors now maxAge prices) := by
    by_cases hc : (sortByPrice (staleSurvivors now maxAge prices)).length < 4
    · rw [workingSet, iqrFilter, if_pos hc] at h1
      exact h1
    · rw [workingSet, iqrFilter, if_neg hc] at h1
      exact List.mem_of_mem_filter h1
  have h3 : p ∈ staleSurvivors now maxAge prices :=
    ((List.perm_insertionSort priceLe (staleSurvivors now maxAge prices)).mem_iff).mp h2
  exact List.mem_of_mem_filter h3

/-- C5: on the normal (volume-enhanced weighted-median) path with all
input volumes non-negative, the aggregate volume is the sum of the
volumes of the final valid set. -/
theorem c5_aggregate_volume (now maxAge k : ℚ) (minSources : ℕ)
    (prices : List PricePoint) (hvol : ∀ p ∈ prices, 0 ≤ p.volume) (r : AggResult)
    (hok : calculateAggregatePrice now maxAge minSources k prices = .ok r)
    (hnormal : r.source = "aggregated_vol_weighted_median") :
    r.volume = sumVolumes (workingSet now maxAge k prices) := by
  rw [calculateAggregatePrice] at hok
  by_cases hlen : prices.length = 0
  · rw [if_pos hlen] at hok
    exact absurd hok (by simp)
  · rw [if_neg hlen] at hok
    by_cases g1 : (staleSurvivors now maxAge prices).length < minSources
    · rw [if_pos g1] at hok
      exact absurd hok (by simp)
    · rw [if_neg g1, aggregateSorted] at hok
      by_cases g2 : (iqrFilter k (sortByPrice (staleSurvivors now maxAge prices))).length
          < minSources
      · rw [if_pos g2] at hok
        exact absurd hok (by simp)
      · rw [if_neg g2] at hok
        have hfbsrc : ∀ l : List PricePoint, fallbackMedian l = .ok r → r.source =
            "aggregated_fallback_median_dyn" := by
          intro l hl
          rw [fallbackMedian] at hl
          by_cases hc : 0 < l.length
          · rw [if_pos hc] at hl
            rw [← Except.ok.inj hl]
          · rw [if_neg hc] at hl
            exact absurd hl (by simp)
        rw [aggregateValid] at hok
        by_cases hS : totalStaticWeight
            (sortByPrice (iqrFilter k (sortByPrice (staleSurvivors now maxAge prices)))) ≤ 0
        · rw [if_pos hS] at hok
          have := hfbsrc _ hok
          rw [this] at hnormal
          exact absurd hnormal (by decide)
        · rw [if_neg hS] at hok
          by_cases hD : totalDynamicWeight
              (sortByPrice (iqrFilter k (sortByPrice (staleSurvivors now maxAge prices)))) ≤ 0
          · rw [if_pos hD] at hok
            have := hfbsrc _ hok
            rw [this] at hnormal
            exact absurd hnormal (by decide)
          · rw [if_neg hD] at hok
            have hfsne : finalSorted now maxAge k prices ≠ [] :=
              totalStaticWeight_ne_nil (lt_of_not_ge hS)
            have hsome := weightedMedianWalk_isSome
              (totalVolume (finalSorted now maxAge k prices))
              (totalDynamicWeight (finalSorted now maxAge k prices) * (1 / 2))
              (finalSorted now maxAge k prices) 0 hfsne (by
                have hsd : sumDyn (totalVolume (finalSorted now maxAge k prices))
                    (finalSorted now maxAge k prices) =
                    totalDynamicWeight (finalSorted now maxAge k prices) := rfl
                have hDpos : 0 < totalDynamicWeight (finalSorted now maxAge k prices) :=
                  lt_of_not_ge hD
                rw [zero_add, hsd]
                linarith)
            obtain ⟨p, hp⟩ := Option.isSome_iff_exists.mp hsome
            rw [show (sortByPrice (iqrFilter k (sortByPrice (staleSurvivors now maxAge prices))))
              = finalSorted now maxAge k prices from rfl, hp] at hok
            have hr := Except.ok.inj hok
            have hrv : r.volume = totalVolume (finalSorted now maxAge k prices) := by
              rw [← hr]
            have hnn : ∀ q ∈ finalSorted now maxAge k prices, 0 ≤ q.volume :=
              fun q hq => hvol q (mem_of_mem_finalSorted now maxAge k prices hq)
            have hsum : sumVolumes (finalSorted now maxAge k prices) =
                sumVolumes (workingSet now maxAge k prices) :=
              ((List.perm_insertionSort priceLe (workingSet now maxAge k prices)).map
                PricePoint.volume).sum_eq
            rw [hrv, totalVolume_eq_sumVolumes hnn, hsum]

/-- Witness for C5 in the five-source IQR scenario: the reported volume
40 is the sum of the volumes of the four surviving observations. -/
theorem c5_aggregate_volume_witness :
    (⟨"aggregated_vol_weighted_median", 1647, 40, 0⟩ : AggResult).volume =
      sumVolumes (workingSet 0 60 (3 / 2)
        [⟨"a", 1646, 10, 0, 1 / 4⟩, ⟨"b", 6593 / 4, 10, 0, 1 / 4⟩, ⟨"c", 1647, 10, 0, 1 / 4⟩,
         ⟨"d", 6595 / 4, 10, 0, 1 / 4⟩, ⟨"e", 2000, 10, 0, 1 / 4⟩]) :=
  c5_aggregate_volume 0 60 (3 / 2) 3
    [⟨"a", 1646, 10, 0, 1 / 4⟩, ⟨"b", 6593 / 4, 10, 0, 1 / 4⟩, ⟨"c", 1647, 10, 0, 1 / 4⟩,
     ⟨"d", 6595 / 4, 10, 0, 1 / 4⟩, ⟨"e", 2000, 10, 0, 1 / 4⟩]
    (by norm_num)
    ⟨"aggregated_vol_weighted_median", 1647, 40, 0⟩
    (by norm_num [calculateAggregatePrice, aggregateSorted, aggregateValid, fallbackMedian,
      staleSurvivors, staleOk, sortByPrice, List.insertionSort, List.orderedInsert,
      iqrFilter, iqrKeep, pointAt, priceLe, totalStaticWeight, totalVolume, sumVolumes,
      totalDynamicWeight, sumDyn, dynamicWeight, weightedMedianWalk])
    rfl

/-- Counterexample to C6: two observations that differ only in source ID
and timestamp but share the price 10.  The two presentation orders are
permutations of one another, yet the aggregate outputs differ (the
selected weighted-median observation, and with it the result timestamp,
depends on the presentation order when prices tie). -/
theorem c6_counterexample :
    ([⟨"a", 10, 0, 1, 1⟩, ⟨"b", 10, 0, 2, 1⟩] : List PricePoint).Perm
      [⟨"b", 10, 0, 2, 1⟩, ⟨"a", 10, 0, 1, 1⟩] ∧
    calculateAggregatePrice 10 60 1 (3 / 2) [⟨"a", 10, 0, 1, 1⟩, ⟨"b", 10, 0, 2, 1⟩] ≠
      calculateAggregatePrice 10 60 1 (3 / 2) [⟨"b", 10, 0, 2, 1⟩, ⟨"a", 10, 0, 1, 1⟩] :=
  ⟨List.Perm.swap _ _ _, by
    norm_num [calculateAggregatePrice, aggregateSorted, aggregateValid, fallbackMedian,
      staleSurvivors, staleOk, sortByPrice, List.insertionSort, List.orderedInsert,
      iqrFilter, iqrKeep, pointAt, priceLe, totalStaticWeight, totalVolume, sumVolumes,
      totalDynamicWeight, sumDyn, dynamicWeight, weightedMedianWalk]⟩

theorem sortByPrice_sorted_lt {l : List PricePoint}
    (h : l.Pairwise fun a b => a.price ≠ b.price) :
    (sortByPrice l).Sorted priceLt := by
  have hle : (sortByPrice l).Sorted priceLe := List.sorted_insertionSort priceLe l
  have hne : (sortByPrice l).Pairwise fun a b => a.price ≠ b.price :=
    ((List.perm_insertionSort priceLe l).pairwise_iff fun hab => hab.symm).mpr h
  exact (List.Pairwise.and hle hne).imp fun hab => lt_of_le_of_ne hab.1 hab.2

/-- Sorting two price-distinct permutations of the same observations by
price yields the same list. -/
theorem sortByPrice_eq_of_perm {l1 l2 : List PricePoint} (hperm : l1.Perm l2)
    (hdist : l1.Pairwise fun a b => a.price ≠ b.price) :
    sortByPrice l1 = sortByPrice l2 := by
  have hdist2 : l2.Pairwise fun a b => a.price ≠ b.price :=
    (hperm.pairwise_iff fun hab => hab.symm).mp hdist
  exact List.eq_of_perm_of_sorted
    (((List.perm_insertionSort priceLe l1).trans hperm).trans
      (List.perm_insertionSort priceLe l2).symm)
    (sortByPrice_sorted_lt hdist) (sortByPrice_sorted_lt hdist2)

/-- C6 amended: the aggregate output is independent of the presentation
order of the observations whenever the observation prices are pairwise
distinct; with tied prices the price, volume and provenance are still
order-independent but the selected observation (hence the result
timestamp) need not be, as the counterexample shows. -/
theorem c6_order_irrelevant_amended (now maxAge : ℚ) (minSources : ℕ) (k : ℚ)
    (l1 l2 : List PricePoint) (hperm : l1.Perm l2)
    (hdist : l1.Pairwise fun a b => a.price ≠ b.price) :
    calculateAggregatePrice now maxAge minSources k l1 =
      calculateAggregatePrice now maxAge minSources k l2 := by
  have hfp : (staleSurvivors now maxAge l1).Perm (staleSurvivors now maxAge l2) :=
    hperm.filter (staleOk now maxAge)
  have hd1 : (staleSurvivors now maxAge l1).Pairwise fun a b => a.price ≠ b.price :=
    hdist.sublist (List.filter_sublist l1)
  have key : sortByPrice (staleSurvivors now maxAge l1) =
      sortByPrice (staleSurvivors now maxAge l2) :=
    sortByPrice_eq_of_perm hfp hd1
  rw [calculateAggregatePrice, calculateAggregatePrice, hperm.length_eq, hfp.length_eq, key]

/-- Witness for C6 amended: two price-distinct observations presented in
both orders produce identical aggregates. -/
theorem c6_order_irrelevant_amended_witness :
    calculateAggregatePrice 0 60 1 (3 / 2) [⟨"a", 1, 0, 0, 1⟩, ⟨"b", 2, 0, 0, 1⟩] =
      calculateAggregatePrice 0 60 1 (3 / 2) [⟨"b", 2, 0, 0, 1⟩, ⟨"a", 1, 0, 0, 1⟩] :=
  c6_order_irrelevant_amended 0 60 1 (3 / 2)
    [⟨"a", 1, 0, 0, 1⟩, ⟨"b", 2, 0, 0, 1⟩] [⟨"b", 2, 0, 0, 1⟩, ⟨"a", 1, 0, 0, 1⟩]
    (List.Perm.swap _ _ _)
    (by norm_num [List.pairwise_cons])

/-- C7 (code bug): the DEX subgraph pool fetcher always places the
pool's `token1Price` in the observation, never consulting which pool
token is the requested quote asset (first conjunct, for every decoded
pool).  At the concrete failing input — a pool whose token0 is the quote
asset and whose two token prices differ — the observation therefore does
not carry the quote-asset-selected price (remaining conjuncts). -/
theorem c7_pool_price_ignores_quote_asset :
    (∀ (now : ℚ) (addr : String) (pd : PoolData),
      fetchUniswapV3PriceExtract now addr ⟨some pd, false⟩ =
        .ok ⟨"uniswap_v3:" ++ addr, pd.token1Price, pd.volumeUSD, now, 0⟩) ∧
    fetchUniswapV3PriceExtract 0 "0xpool" ⟨some ⟨2000, 1 / 2000, 5, "USDC", "ETH"⟩, false⟩ =
      .ok ⟨"uniswap_v3:0xpool", 1 / 2000, 5, 0, 0⟩ ∧
    (2000 : ℚ) ≠ 1 / 2000 := by
  refine ⟨fun now addr pd => rfl, rfl, by norm_num⟩

/-- Counterexample to C8: `ValidateLoadedConfig` accepts a configuration
whose only feed has its single source weight equal to 0 (so all weights
are zero and none is positive), and likewise one with a negative weight;
`LoadAllConfigs` returns both instead of failing. -/
theorem c8_counterexample :
    validateLoadedConfig
      ⟨["eth"], ["ETH", "USDC"], [⟨"binance_cex", .cexTicker, ""⟩],
       [⟨"ETHUSDC_Global", "ETH", "USDC", "global", ["binance_cex"],
         [("binance_cex", 0)], ⟨1⟩⟩]⟩ = true ∧
    (∀ pr ∈ (⟨["eth"], ["ETH", "USDC"], [⟨"binance_cex", .cexTicker, ""⟩],
       [⟨"ETHUSDC_Global", "ETH", "USDC", "global", ["binance_cex"],
         [("binance_cex", 0)], ⟨1⟩⟩]⟩ : LoadedConfig).pairs,
      ∀ w ∈ pr.sourceWeights, w.2 = 0) ∧
    loadAllConfigs
      ⟨["eth"], ["ETH", "USDC"], [⟨"binance_cex", .cexTicker, ""⟩],
       [⟨"ETHUSDC_Global", "ETH", "USDC", "global", ["binance_cex"],
         [("binance_cex", 0)], ⟨1⟩⟩]⟩ =
      some ⟨["eth"], ["ETH", "USDC"], [⟨"binance_cex", .cexTicker, ""⟩],
       [⟨"ETHUSDC_Global", "ETH", "USDC", "global", ["binance_cex"],
         [("binance_cex", 0)], ⟨1⟩⟩]⟩ ∧
    validateLoadedConfig
      ⟨["eth"], ["ETH", "USDC"], [⟨"binance_cex", .cexTicker, ""⟩],
       [⟨"ETHUSDC_Global", "ETH", "USDC", "global", ["binance_cex"],
         [("binance_cex", -1)], ⟨1⟩⟩]⟩ = true := by
  refine ⟨?_, ?_, ?_, ?_⟩
  · norm_num [validateLoadedConfig, validSource, validPair, validPairSource,
      List.lookup, List.find?, List.contains, List.all] <;> decide
  · intro pr hpr w hw
    simp only [List.mem_singleton] at hpr
    subst hpr
    simp only [List.mem_singleton] at hw
    subst hw
    rfl
  · rw [loadAllConfigs, if_pos]
    norm_num [validateLoadedConfig, validSource, validPair, validPairSource,
      List.lookup, List.find?, List.contains, List.all] <;> decide
  · norm_num [validateLoadedConfig, validSource, validPair, validPairSource,
      List.lookup, List.find?, List.contains, List.all] <;> decide

/-- C8 amended: what configuration loading does verify about weights is
only presence — every accepted configuration has, for each feed, a
weight entry for each of its listed sources; no sign or positivity check
is performed, so negative or all-zero weights pass (see the
counterexample). -/
theorem c8_weight_validation_amended (cfg : LoadedConfig)
    (h : validateLoadedConfig cfg = true) :
    ∀ pr ∈ cfg.pairs, ∀ sid ∈ pr.sourceIDs, (pr.sourceWeights.lookup sid).isSome := by
  intro pr hpr sid hsid
  rw [validateLoadedConfig] at h
  simp only [Bool.and_eq_true, List.all_eq_true] at h
  have hpair := h.2 pr hpr
  rw [validPair] at hpair
  simp only [Bool.and_eq_true, List.all_eq_true] at hpair
  have hps := hpair.2 sid hsid
  rw [validPairSource] at hps
  simp only [Bool.and_eq_true] at hps
  exact hps.1.2

/-- Witness for C8 amended: in a concrete well-formed configuration with
one positively weighted source, the accepted feed has a weight entry for
its source. -/
theorem c8_weight_validation_amended_witness :
    (((⟨"ETHUSDC_Global", "ETH", "USDC", "global", ["binance_cex"],
        [("binance_cex", 1)], ⟨1⟩⟩ : ConfigPair)).sourceWeights.lookup "binance_cex").isSome :=
  c8_weight_validation_amended
    ⟨["eth"], ["ETH", "USDC"], [⟨"binance_cex", .cexTicker, ""⟩],
     [⟨"ETHUSDC_Global", "ETH", "USDC", "global", ["binance_cex"],
       [("binance_cex", 1)], ⟨1⟩⟩]⟩
    (by norm_num [validateLoadedConfig, validSource, validPair, validPairSource,
      List.lookup, List.find?, List.contains, List.all] <;> decide)
    ⟨"ETHUSDC_Global", "ETH", "USDC", "global", ["binance_cex"], [("binance_cex", 1)], ⟨1⟩⟩
    (List.mem_singleton.mpr rfl)
    "binance_cex"
    (List.mem_singleton.mpr rfl)

/-- C9 (modelled from the spec, the detail cache and orchestrator are
not among the sources): after every `AggregateFeed` call — succeeding or
failing — the cache entry for the feed is exactly the annotated
observation list of that call, with one entry per fetch outcome, each
carrying exactly one status from the four-status enum; fetching returns
that list, and `NotFound` (`none`) when no aggregation was attempted. -/
theorem c9_detail_cache_contract (now maxAge : ℚ) (minSources : ℕ) (k : ℚ)
    (feedID : String) (fetched : List FetchOutcome) (cache : DetailCache) :
    fetchDetails (aggregateFeed now maxAge minSources k feedID fetched cache).2 feedID =
      some (annotateObs now maxAge k fetched) ∧
    (annotateObs now maxAge k fetched).length = fetched.length ∧
    (∀ a ∈ annotateObs now maxAge k fetched,
      a.status = .valid ∨ a.status = .stale ∨ a.status = .outlier ∨ a.status = .fetchError) ∧
    (∀ fid : String, fetchDetails emptyCache fid = none) := by
  refine ⟨?_, List.length_map fetched _, ?_, fun fid => rfl⟩
  · rw [aggregateFeed, fetchDetails, storeDetails]
    simp [List.lookup]
  · intro a _
    rcases a with ⟨obs, st⟩
    rcases st <;> simp

/-- Witness for C9 at a concrete call: one successful and one failed
fetch leave exactly their two annotated observations in the cache. -/
theorem c9_detail_cache_contract_witness :
    fetchDetails (aggregateFeed 0 60 2 (3 / 2) "ETHUSDC_Global"
      [.success ⟨"binance", 10, 1, 0, 1⟩, .failure ⟨"kraken", 0, 0, 0, 0⟩] emptyCache).2
      "ETHUSDC_Global" =
      some (annotateObs 0 60 (3 / 2)
        [.success ⟨"binance", 10, 1, 0, 1⟩, .failure ⟨"kraken", 0, 0, 0, 0⟩]) :=
  (c9_detail_cache_contract 0 60 2 (3 / 2) "ETHUSDC_Global"
    [.success ⟨"binance", 10, 1, 0, 1⟩, .failure ⟨"kraken", 0, 0, 0, 0⟩] emptyCache).1
